import Mathlib
set_option maxRecDepth 16384

/-!
Verification of the login feature of the AISqaud-Team-project repository.

The TypeScript core under scrutiny consists of
  * `src/features/auth/validation/login.validation.ts` (field/form validation,
    `sanitizeEmail`, `canSubmitForm`),
  * `src/features/auth/services/auth.service.ts` (`isValidRedirectUrl`,
    `getSafeRedirectUrl`),
  * `src/features/auth/hooks/useLogin.ts` (the login submission state machine).

JavaScript strings are modelled as lists of UTF-16 code units (`List Nat`);
`jsStr` converts a Lean string literal to that representation so concrete
test inputs can be written down directly.  `String.prototype.trim` is
modelled by `jsTrim` (drop ECMAScript whitespace from both ends) and
`String.prototype.toLowerCase` by mapping `jsLowerCode` (the ASCII case
mapping, which is the fragment exercised by the code under verification).
-/

/-- ECMAScript whitespace (the set trimmed by `String.prototype.trim`):
TAB, LF, VT, FF, CR, SP, NBSP, OGHAM SPACE, U+2000–U+200A, LS, PS,
NARROW NBSP, MMSP, IDEOGRAPHIC SPACE, BOM. -/
def jsIsWS (n : Nat) : Bool :=
  decide (n = 9 ∨ n = 10 ∨ n = 11 ∨ n = 12 ∨ n = 13 ∨ n = 32 ∨ n = 160 ∨
    n = 0x1680 ∨ (0x2000 ≤ n ∧ n ≤ 0x200A) ∨ n = 0x2028 ∨ n = 0x2029 ∨
    n = 0x202F ∨ n = 0x205F ∨ n = 0x3000 ∨ n = 0xFEFF)

/-- ASCII case mapping of `String.prototype.toLowerCase`: code units of
uppercase ASCII letters are shifted to the lowercase letters, everything
else (in the fragment used by this code base) is unchanged. -/
def jsLowerCode (n : Nat) : Nat :=
  if 65 ≤ n ∧ n ≤ 90 then n + 32 else n

/-- An uppercase ASCII letter code unit. -/
def isUpperCode (n : Nat) : Bool :=
  decide (65 ≤ n ∧ n ≤ 90)

/-- Model of `String.prototype.trim`: remove whitespace from both ends. -/
def jsTrim (l : List Nat) : List Nat :=
  (l.dropWhile jsIsWS).rdropWhile jsIsWS

/-- Code units of a string literal (all literals used below are ASCII, so
`Char.toNat` gives exactly the UTF-16 code units). -/
def jsStr (s : String) : List Nat :=
  s.data.map Char.toNat

/-- Model of `String.prototype.startsWith`: `listStartsWith s p` is true iff `p` is a
prefix of `s`. -/
def listStartsWith : List Nat → List Nat → Bool
  | _, [] => true
  | [], _ :: _ => false
  | a :: s, b :: p => a == b && listStartsWith s p

/-- Split a list at the first occurrence of `x`: returns the part before
and the part after that occurrence, or `none` when `x` does not occur. -/
def splitAtFirst (x : Nat) : List Nat → Option (List Nat × List Nat)
  | [] => none
  | a :: r =>
    if a = x then some ([], r)
    else
      match splitAtFirst x r with
      | none => none
      | some (p, q) => some (a :: p, q)

/-- Split a list at the last occurrence of `x`. -/
def splitAtLast (x : Nat) (l : List Nat) : Option (List Nat × List Nat) :=
  match splitAtFirst x l.reverse with
  | none => none
  | some (p, q) => some (q.reverse, p.reverse)

/-- Character class `[a-zA-Z]` of the email regex. -/
def isAlphaCode (n : Nat) : Bool :=
  decide ((65 ≤ n ∧ n ≤ 90) ∨ (97 ≤ n ∧ n ≤ 122))

/-- Character class `[0-9]` of the email regex. -/
def isDigitCode (n : Nat) : Bool :=
  decide (48 ≤ n ∧ n ≤ 57)

/-- Character class `[a-zA-Z0-9._%+-]` (local part of the email regex). -/
def isLocalCode (n : Nat) : Bool :=
  isAlphaCode n || isDigitCode n || decide (n = 46 ∨ n = 95 ∨ n = 37 ∨ n = 43 ∨ n = 45)

/-- Character class `[a-zA-Z0-9.-]` (domain part of the email regex). -/
def isDomainCode (n : Nat) : Bool :=
  isAlphaCode n || isDigitCode n || decide (n = 46 ∨ n = 45)

/-- Model of `EMAIL_REGEX.test` for
`/^[a-zA-Z0-9._%+-]+@[a-zA-Z0-9.-]+\.[a-zA-Z]{2,}$/`
(login.validation.ts line 274).  Because `@` belongs to none of the three
character classes, a match must place the pattern's `@` at the first `@` of
the string, and because the trailing `[a-zA-Z]{2,}` cannot contain a dot,
the pattern's `\.` must match the last dot after the `@`; the matcher below
implements exactly that decomposition (`emailRegexTest_iff_shape` proves it
equivalent to the declarative reading of the regex). -/
def emailRegexTest (l : List Nat) : Bool :=
  match splitAtFirst 64 l with
  | none => false
  | some (a, r) =>
    !a.isEmpty && a.all isLocalCode &&
      (match splitAtLast 46 r with
       | none => false
       | some (b, c) =>
         !b.isEmpty && b.all isDomainCode && decide (2 ≤ c.length) && c.all isAlphaCode)

/-- Declarative reading of the anchored email regex: the string decomposes
as `local ++ "@" ++ domain ++ "." ++ tld` with nonempty `local` over
`[a-zA-Z0-9._%+-]`, nonempty `domain` over `[a-zA-Z0-9.-]`, and `tld` of
length at least 2 over `[a-zA-Z]`. -/
def EmailShape (l : List Nat) : Prop :=
  ∃ a b c : List Nat,
    l = a ++ 64 :: (b ++ 46 :: c) ∧
    a ≠ [] ∧ a.all isLocalCode = true ∧
    b ≠ [] ∧ b.all isDomainCode = true ∧
    2 ≤ c.length ∧ c.all isAlphaCode = true

/-! ### Data model (auth.types.ts) -/

/-- Model of `keyof LoginCredentials` / `keyof LoginFormValues`. -/
inductive FieldName
  | email
  | password
  | rememberMe
deriving DecidableEq, Repr

/-- Model of `ValidationErrorType`. -/
inductive ValidationErrorType
  | required
  | format
  | minLength
  | maxLength
  | custom
deriving DecidableEq, Repr

/-- Model of `FieldError`. -/
structure FieldError where
  field : FieldName
  message : List Nat
  type : ValidationErrorType
deriving DecidableEq, Repr

/-- Model of `LoginFormValues` (= shape of `LoginCredentials`): form state. -/
structure LoginFormValues where
  email : List Nat
  password : List Nat
  rememberMe : Bool
deriving DecidableEq, Repr

/-- Model of `LoginCredentials` passed to the authentication client. -/
structure LoginCredentials where
  email : List Nat
  password : List Nat
  rememberMe : Bool
deriving DecidableEq, Repr

/-- Model of `ValidationState` returned by `validateLoginForm`; `touched` is the
`Partial<Record<keyof LoginCredentials, boolean>>` with absent entries
modelled as `false`. -/
structure Touched where
  email : Bool
  password : Bool
  rememberMe : Bool
deriving DecidableEq, Repr

/-- Model of `ValidationState`. -/
structure ValidationState where
  errors : List FieldError
  isValid : Bool
  touched : Touched
deriving DecidableEq, Repr

/-- Model of `AuthErrorCode`. -/
inductive AuthErrorCode
  | INVALID_CREDENTIALS
  | ACCOUNT_LOCKED
  | ACCOUNT_DISABLED
  | TOO_MANY_ATTEMPTS
  | SESSION_EXPIRED
  | NETWORK_ERROR
  | SERVER_ERROR
  | VALIDATION_ERROR
deriving DecidableEq, Repr

/-- Model of `AuthError` (the optional `details` map is never inspected by the core
and is omitted). -/
structure AuthError where
  code : AuthErrorCode
  message : List Nat
deriving DecidableEq, Repr

/-- Model of `SubmissionState`. -/
inductive SubmissionState
  | idle
  | submitting
  | success
  | error
deriving DecidableEq, Repr

/-! ### login.validation.ts -/

/-- Model of `ValidationRule`. -/
structure ValidationRule where
  test : List Nat → Bool
  message : List Nat
  type : ValidationErrorType

/-- Model of `emailRules` (login.validation.ts lines 279–295): required on the
trimmed value, then the email regex on the trimmed value, then trimmed
length at most 254. -/
def emailRules : List ValidationRule :=
  [ { test := fun value => decide (0 < (jsTrim value).length),
      message := jsStr "Email is required",
      type := ValidationErrorType.required },
    { test := fun value => emailRegexTest (jsTrim value),
      message := jsStr "Please enter a valid email address",
      type := ValidationErrorType.format },
    { test := fun value => decide ((jsTrim value).length ≤ 254),
      message := jsStr "Email must not exceed 254 characters",
      type := ValidationErrorType.maxLength } ]

/-- Model of `passwordRules` (login.validation.ts lines 300–316). -/
def passwordRules : List ValidationRule :=
  [ { test := fun value => decide (0 < value.length),
      message := jsStr "Password is required",
      type := ValidationErrorType.required },
    { test := fun value => decide (8 ≤ value.length),
      message := jsStr "Password must be at least 8 characters",
      type := ValidationErrorType.minLength },
    { test := fun value => decide (value.length ≤ 128),
      message := jsStr "Password must not exceed 128 characters",
      type := ValidationErrorType.maxLength } ]

/-- The `for (const rule of rules)` loop of `validateField`: return the
error of the first failing rule, `none` when all pass. -/
def runRules (field : FieldName) (value : List Nat) : List ValidationRule → Option FieldError
  | [] => none
  | r :: rs =>
    if r.test value = false then
      some { field := field, message := r.message, type := r.type }
    else
      runRules field value rs

/-- Model of `validateField` (login.validation.ts lines 325–342). -/
def validateField (field : FieldName) (value : List Nat) : Option FieldError :=
  let rules :=
    if field = FieldName.email then emailRules
    else if field = FieldName.password then passwordRules
    else []
  runRules field value rules

/-- Model of `validateLoginForm` (login.validation.ts lines 350–370): validate
`email`, then `password`, pushing any non-null error; `isValid` is
`errors.length === 0`; `touched` is the empty record. -/
def validateLoginForm (values : LoginFormValues) : ValidationState :=
  let errors0 : List FieldError := []
  let errors1 :=
    match validateField FieldName.email values.email with
    | some e => errors0 ++ [e]
    | none => errors0
  let errors2 :=
    match validateField FieldName.password values.password with
    | some e => errors1 ++ [e]
    | none => errors1
  { errors := errors2,
    isValid := errors2.length == 0,
    touched := { email := false, password := false, rememberMe := false } }

/-- Model of `sanitizeEmail` (login.validation.ts lines 407–409):
`email.trim().toLowerCase()`. -/
def sanitizeEmail (email : List Nat) : List Nat :=
  (jsTrim email).map jsLowerCode

/-- Model of `canSubmitForm` (login.validation.ts lines 418–428). -/
def canSubmitForm (values : LoginFormValues) (isSubmitting : Bool) : Bool :=
  if isSubmitting then false
  else (validateLoginForm values).isValid

/-! ### auth.service.ts : redirect guard -/

/-- The `allowedPaths` allow-list (auth.service.ts line 212). -/
def allowedPaths : List (List Nat) :=
  [jsStr "/dashboard", jsStr "/profile", jsStr "/settings", jsStr "/"]

/-- Model of `isValidRedirectUrl` (auth.service.ts lines 190–216). -/
def isValidRedirectUrl (url : List Nat) : Bool :=
  if url.isEmpty || (jsTrim url).length == 0 then false
  else if listStartsWith url (jsStr "http://") || listStartsWith url (jsStr "https://") ||
      listStartsWith url (jsStr "//") then false
  else if listStartsWith url (jsStr "javascript:") || listStartsWith url (jsStr "data:") then false
  else if !listStartsWith url (jsStr "/") then false
  else allowedPaths.any (fun path => url == path || listStartsWith url (path ++ jsStr "/"))

/-- Model of `getSafeRedirectUrl` (auth.service.ts lines 225–233); `none` models a
JavaScript `undefined` candidate, and the truthiness test `redirectUrl &&`
additionally rejects the empty string. -/
def getSafeRedirectUrl (redirectUrl : Option (List Nat)) (defaultUrl : List Nat) : List Nat :=
  match redirectUrl with
  | some u => if !u.isEmpty && isValidRedirectUrl u then u else defaultUrl
  | none => defaultUrl

/-! ### useLogin.ts : login submission state machine

The hook's React state cells (`values`, `errors`, `touched`,
`submissionState`, `authError`) together with the `isSubmittingRef`
re-entrancy flag form the machine state.  The async `handleSubmit` is split
at its single suspension point (the `await login(...)`): `handleSubmit`
below is its synchronous prefix, returning the successor state together
with the credentials passed to the authentication client (`none` when the
client is not invoked), and `handleSubmitResolve` / `handleSubmitReject`
are the continuations run when the client resolves or rejects (the
`finally` clearing of the flag is folded into each). -/

/-- The value carried by a `handleChange` event (`string | boolean`). -/
inductive ChangeValue
  | str (v : List Nat)
  | bool (b : Bool)
deriving DecidableEq, Repr

/-- State of one `useLogin` form-session instance. -/
structure LoginState where
  values : LoginFormValues
  errors : List FieldError
  touched : Touched
  submissionState : SubmissionState
  authError : Option AuthError
  isSubmittingRef : Bool
deriving DecidableEq, Repr

/-- The hook options that affect the state machine
(`validateOnChange` default `false`, `validateOnBlur` default `true`). -/
structure UseLoginOptions where
  validateOnChange : Bool
  validateOnBlur : Bool
deriving DecidableEq, Repr

/-- Model of `INITIAL_FORM_VALUES` (useLogin.ts lines 27–31). -/
def INITIAL_FORM_VALUES : LoginFormValues :=
  { email := [], password := [], rememberMe := false }

/-- The state after mounting the hook (useLogin.ts lines 85–92). -/
def initialLoginState : LoginState :=
  { values := INITIAL_FORM_VALUES,
    errors := [],
    touched := { email := false, password := false, rememberMe := false },
    submissionState := SubmissionState.idle,
    authError := none,
    isSubmittingRef := false }

/-- Replace the errors of `field` by the outcome of a field validation:
`prev.filter(err => err.field !== field)` extended by the new error when
there is one (useLogin.ts lines 114–117 and 139–142). -/
def replaceFieldErrors (errors : List FieldError) (field : FieldName)
    (fieldError : Option FieldError) : List FieldError :=
  let filtered := errors.filter (fun err => err.field ≠ field)
  match fieldError with
  | some e => filtered ++ [e]
  | none => filtered

/-- Model of `handleChange` (useLogin.ts lines 97–124) for the well-typed calls the
form issues: a string for `email`/`password`, a boolean for `rememberMe`.
The email value is stored sanitized; a stored auth error is cleared; when
`validateOnChange` is set, the raw (unsanitized) string value is
re-validated, and for a boolean value the field's errors are cleared. -/
def handleChange (opts : UseLoginOptions) (s : LoginState)
    (field : FieldName) (value : ChangeValue) : LoginState :=
  let values :=
    match field, value with
    | FieldName.email, ChangeValue.str raw => { s.values with email := sanitizeEmail raw }
    | FieldName.password, ChangeValue.str raw => { s.values with password := raw }
    | FieldName.rememberMe, ChangeValue.bool b => { s.values with rememberMe := b }
    | _, _ => s.values
  let authError := if s.authError.isSome then none else s.authError
  let errors :=
    match value with
    | ChangeValue.str raw =>
      if opts.validateOnChange then
        replaceFieldErrors s.errors field (validateField field raw)
      else s.errors
    | ChangeValue.bool _ =>
      if opts.validateOnChange then
        s.errors.filter (fun err => err.field ≠ field)
      else s.errors
  { s with values := values, authError := authError, errors := errors }

/-- Mark one field of `touched` as true. -/
def setTouched (t : Touched) (field : FieldName) : Touched :=
  match field with
  | FieldName.email => { t with email := true }
  | FieldName.password => { t with password := true }
  | FieldName.rememberMe => { t with rememberMe := true }

/-- Model of `handleBlur` (useLogin.ts lines 129–147): mark the field touched and,
when `validateOnBlur` is set and the stored field value is a string
(`email`/`password`), re-validate the stored value. -/
def handleBlur (opts : UseLoginOptions) (s : LoginState) (field : FieldName) : LoginState :=
  let touched := setTouched s.touched field
  if opts.validateOnBlur then
    match field with
    | FieldName.email =>
      { s with touched := touched,
               errors := replaceFieldErrors s.errors FieldName.email
                 (validateField FieldName.email s.values.email) }
    | FieldName.password =>
      { s with touched := touched,
               errors := replaceFieldErrors s.errors FieldName.password
                 (validateField FieldName.password s.values.password) }
    | FieldName.rememberMe => { s with touched := touched }
  else { s with touched := touched }

/-- Synchronous prefix of `handleSubmit` (useLogin.ts lines 152–187), up to
and including the invocation of the authentication client.  The second
component is the argument of the `login(...)` call, `none` when the client
is not invoked (duplicate submit or invalid form). -/
def handleSubmit (s : LoginState) : LoginState × Option LoginCredentials :=
  if s.isSubmittingRef then (s, none)
  else
    let validation := validateLoginForm s.values
    let s1 := { s with errors := validation.errors,
                       touched := { email := true, password := true, rememberMe := true } }
    if validation.isValid = false then
      ({ s1 with submissionState := SubmissionState.error }, none)
    else
      ({ s1 with isSubmittingRef := true,
                 submissionState := SubmissionState.submitting,
                 authError := none },
       some { email := s.values.email,
              password := s.values.password,
              rememberMe := s.values.rememberMe })

/-- Continuation of `handleSubmit` when the client resolves (useLogin.ts
lines 189–190 and the `finally` at 196–198). -/
def handleSubmitResolve (s : LoginState) : LoginState :=
  { s with submissionState := SubmissionState.success, isSubmittingRef := false }

/-- Continuation of `handleSubmit` when the client rejects with `e`
(useLogin.ts lines 191–198): store the error, enter `error`, clear the
flag; the second component is the argument passed to the `onError`
callback. -/
def handleSubmitReject (s : LoginState) (e : AuthError) : LoginState × Option AuthError :=
  ({ s with authError := some e,
            submissionState := SubmissionState.error,
            isSubmittingRef := false },
   some e)

/-- Model of `resetForm` (useLogin.ts lines 206–213). -/
def resetForm (_s : LoginState) : LoginState :=
  initialLoginState

/-- The states a form-session instance can reach from mount by any
sequence of change, blur, submit, resolve, reject and reset events. -/
inductive ReachableLoginState (opts : UseLoginOptions) : LoginState → Prop
  | init : ReachableLoginState opts initialLoginState
  | change {s : LoginState} (field : FieldName) (value : ChangeValue) :
      ReachableLoginState opts s → ReachableLoginState opts (handleChange opts s field value)
  | blur {s : LoginState} (field : FieldName) :
      ReachableLoginState opts s → ReachableLoginState opts (handleBlur opts s field)
  | submit {s : LoginState} :
      ReachableLoginState opts s → ReachableLoginState opts (handleSubmit s).1
  | resolve {s : LoginState} :
      ReachableLoginState opts s → ReachableLoginState opts (handleSubmitResolve s)
  | reject {s : LoginState} (e : AuthError) :
      ReachableLoginState opts s → ReachableLoginState opts (handleSubmitReject s e).1
  | reset {s : LoginState} :
      ReachableLoginState opts s → ReachableLoginState opts (resetForm s)

/-- The default hook options (`validateOnChange: false`,
`validateOnBlur: true`). -/
def defaultUseLoginOptions : UseLoginOptions :=
  { validateOnChange := false, validateOnBlur := true }

/-- A concrete session: the user typed a mixed-case email (stored
sanitized by `handleChange`) and a valid password. -/
def stateAfterValidEntry : LoginState :=
  handleChange defaultUseLoginOptions
    (handleChange defaultUseLoginOptions initialLoginState
      FieldName.email (ChangeValue.str (jsStr "User@Example.COM")))
    FieldName.password (ChangeValue.str (jsStr "password123"))

/-- The concrete session above after a first submit: the machine is in
`submitting` with the re-entrancy flag set. -/
def stateInFlight : LoginState :=
  (handleSubmit stateAfterValidEntry).1

/-- The generic invalid-credentials rejection of the collaborator
contract. -/
def invalidCredentialsError : AuthError :=
  { code := AuthErrorCode.INVALID_CREDENTIALS,
    message := jsStr "Invalid email or password" }

/-! ### Helper lemmas: the ASCII case mapping and trimming -/

theorem jsIsWS_lowerCode (n : Nat) : jsIsWS (jsLowerCode n) = jsIsWS n := by
  unfold jsLowerCode
  split
  · simp only [jsIsWS, decide_eq_decide]
    omega
  · rfl

theorem jsLowerCode_idem (n : Nat) : jsLowerCode (jsLowerCode n) = jsLowerCode n := by
  unfold jsLowerCode
  split_ifs <;> omega

theorem isUpperCode_lowerCode (n : Nat) : isUpperCode (jsLowerCode n) = false := by
  unfold isUpperCode jsLowerCode
  split_ifs with h <;> (rw [decide_eq_false_iff_not]; omega)

theorem jsTrim_dropWhile_self (l : List Nat) :
    (jsTrim l).dropWhile jsIsWS = jsTrim l := by
  rw [List.dropWhile_eq_self_iff]
  intro hl
  have hpre : jsTrim l <+: l.dropWhile jsIsWS := List.rdropWhile_prefix _ _
  have hl2 : 0 < (l.dropWhile jsIsWS).length := lt_of_lt_of_le hl hpre.length_le
  have hget : (jsTrim l).get ⟨0, hl⟩ = (l.dropWhile jsIsWS).get ⟨0, hl2⟩ := by
    simpa [List.get_eq_getElem] using hpre.getElem hl
  rw [hget]
  exact List.dropWhile_get_zero_not jsIsWS l hl2

theorem jsTrim_idem (l : List Nat) : jsTrim (jsTrim l) = jsTrim l := by
  calc jsTrim (jsTrim l)
      = ((jsTrim l).dropWhile jsIsWS).rdropWhile jsIsWS := rfl
    _ = (jsTrim l).rdropWhile jsIsWS := by rw [jsTrim_dropWhile_self]
    _ = jsTrim l := List.rdropWhile_idempotent jsIsWS (l.dropWhile jsIsWS)

theorem jsTrim_map_lower (l : List Nat) :
    jsTrim (l.map jsLowerCode) = (jsTrim l).map jsLowerCode := by
  have hcomp : (jsIsWS ∘ jsLowerCode) = jsIsWS := funext jsIsWS_lowerCode
  unfold jsTrim List.rdropWhile
  rw [List.dropWhile_map, hcomp, ← List.map_reverse, List.dropWhile_map, hcomp,
    ← List.map_reverse]

theorem sanitizeEmail_idempotent (l : List Nat) :
    sanitizeEmail (sanitizeEmail l) = sanitizeEmail l := by
  have hf : (jsLowerCode ∘ jsLowerCode) = jsLowerCode := funext jsLowerCode_idem
  calc sanitizeEmail (sanitizeEmail l)
      = (jsTrim ((jsTrim l).map jsLowerCode)).map jsLowerCode := rfl
    _ = (((jsTrim l).map jsLowerCode).map jsLowerCode) := by
        rw [jsTrim_map_lower, jsTrim_idem]
    _ = (jsTrim l).map (jsLowerCode ∘ jsLowerCode) := by rw [List.map_map]
    _ = sanitizeEmail l := by rw [hf]; rfl

theorem sanitizeEmail_trim_self (l : List Nat) :
    jsTrim (sanitizeEmail l) = sanitizeEmail l := by
  calc jsTrim ((jsTrim l).map jsLowerCode)
      = (jsTrim (jsTrim l)).map jsLowerCode := jsTrim_map_lower _
    _ = (jsTrim l).map jsLowerCode := by rw [jsTrim_idem]

theorem sanitizeEmail_no_upper (l : List Nat) :
    (sanitizeEmail l).all (fun n => !isUpperCode n) = true := by
  unfold sanitizeEmail
  rw [List.all_map]
  refine List.all_eq_true.mpr fun x _ => ?_
  simp [Function.comp, isUpperCode_lowerCode]

/-! ### Helper lemmas: splitting and the email matcher -/

theorem splitAtFirst_eq_some {x : Nat} :
    ∀ {l p q : List Nat}, splitAtFirst x l = some (p, q) → l = p ++ x :: q ∧ x ∉ p := by
  intro l
  induction l with
  | nil => intro p q h; simp [splitAtFirst] at h
  | cons a r ih =>
    intro p q h
    by_cases ha : a = x
    · rw [splitAtFirst, if_pos ha] at h
      obtain ⟨rfl, rfl⟩ : p = [] ∧ q = r := by
        constructor <;> (injection h with h'; rw [Prod.mk.injEq] at h'; simp [h'.1, h'.2])
      simp [ha]
    · rw [splitAtFirst, if_neg ha] at h
      cases hrec : splitAtFirst x r with
      | none => rw [hrec] at h; simp at h
      | some pq =>
        obtain ⟨p', q'⟩ := pq
        rw [hrec] at h
        obtain ⟨rfl, rfl⟩ : p = a :: p' ∧ q = q' := by
          constructor <;> (injection h with h'; rw [Prod.mk.injEq] at h'; simp [h'.1, h'.2])
        obtain ⟨hr, hnot⟩ := ih hrec
        refine ⟨by rw [hr]; rfl, ?_⟩
        intro hmem
        rcases List.mem_cons.mp hmem with h1 | h1
        · exact ha h1.symm
        · exact hnot h1

theorem splitAtFirst_append {x : Nat} (p q : List Nat) (hp : x ∉ p) :
    splitAtFirst x (p ++ x :: q) = some (p, q) := by
  induction p with
  | nil => simp [splitAtFirst]
  | cons a p' ih =>
    have ha : ¬a = x := fun h => hp (by simp [h])
    have hp' : x ∉ p' := fun h => hp (by simp [h])
    rw [List.cons_append, splitAtFirst, if_neg ha, ih hp']

theorem splitAtLast_eq_some {x : Nat} {l b c : List Nat}
    (h : splitAtLast x l = some (b, c)) : l = b ++ x :: c ∧ x ∉ c := by
  unfold splitAtLast at h
  cases hs : splitAtFirst x l.reverse with
  | none => rw [hs] at h; simp at h
  | some pq =>
    obtain ⟨p, q⟩ := pq
    rw [hs] at h
    obtain ⟨rfl, rfl⟩ : b = q.reverse ∧ c = p.reverse := by
      constructor <;> (injection h with h'; rw [Prod.mk.injEq] at h'; simp [h'.1, h'.2])
    obtain ⟨hrev, hnot⟩ := splitAtFirst_eq_some hs
    constructor
    · have := congrArg List.reverse hrev
      simpa using this
    · simpa using hnot

theorem splitAtLast_append {x : Nat} (b c : List Nat) (hc : x ∉ c) :
    splitAtLast x (b ++ x :: c) = some (b, c) := by
  unfold splitAtLast
  have : (b ++ x :: c).reverse = c.reverse ++ x :: b.reverse := by simp
  rw [this, splitAtFirst_append _ _ (by simpa using hc)]
  simp

theorem emailRegexTest_iff_shape (l : List Nat) :
    emailRegexTest l = true ↔ EmailShape l := by
  constructor
  · intro h
    unfold emailRegexTest at h
    split at h
    · exact absurd h (by simp)
    · rename_i a r hs
      rw [Bool.and_eq_true] at h
      obtain ⟨h1, h2⟩ := h
      obtain ⟨hl, -⟩ := splitAtFirst_eq_some hs
      split at h2
      · exact absurd h2 (by simp)
      · rename_i b c ht
        obtain ⟨hr, -⟩ := splitAtLast_eq_some ht
        simp only [Bool.and_eq_true, Bool.not_eq_true', List.isEmpty_eq_false,
          decide_eq_true_eq] at h1 h2
        exact ⟨a, b, c, by rw [hl, hr], h1.1, h1.2, h2.1.1.1, h2.1.1.2, h2.1.2, h2.2⟩
  · rintro ⟨a, b, c, rfl, ha, hal, hb, hbd, hclen, hca⟩
    have h64 : (64 : Nat) ∉ a := by
      intro hmem
      have := List.all_eq_true.mp hal _ hmem
      simp [isLocalCode, isAlphaCode, isDigitCode] at this
    have h46 : (46 : Nat) ∉ c := by
      intro hmem
      have := List.all_eq_true.mp hca _ hmem
      simp [isAlphaCode] at this
    simp only [emailRegexTest, splitAtFirst_append _ _ h64, splitAtLast_append _ _ h46,
      Bool.and_eq_true, Bool.not_eq_true', List.isEmpty_eq_false, decide_eq_true_eq]
    exact ⟨⟨ha, hal⟩, ⟨⟨⟨hb, hbd⟩, hclen⟩, hca⟩⟩

/-! ### Helper lemmas: the validators -/

theorem runRules_field {f : FieldName} {v : List Nat} {e : FieldError} :
    ∀ {rules : List ValidationRule}, runRules f v rules = some e → e.field = f := by
  intro rules
  induction rules with
  | nil => intro h; simp [runRules] at h
  | cons r rs ih =>
    intro h
    rw [runRules] at h
    split at h
    · cases h
      rfl
    · exact ih h

theorem validateField_field {f : FieldName} {v : List Nat} {e : FieldError}
    (h : validateField f v = some e) : e.field = f :=
  runRules_field h

theorem validateLoginForm_errors (values : LoginFormValues) :
    (validateLoginForm values).errors =
      (validateField FieldName.email values.email).toList ++
        (validateField FieldName.password values.password).toList := by
  unfold validateLoginForm
  cases validateField FieldName.email values.email <;>
    cases validateField FieldName.password values.password <;> simp

theorem validateLoginForm_isValid_iff (values : LoginFormValues) :
    (validateLoginForm values).isValid = true ↔ (validateLoginForm values).errors = [] := by
  unfold validateLoginForm
  cases validateField FieldName.email values.email <;>
    cases validateField FieldName.password values.password <;> simp

theorem validateLoginForm_errors_nil_of_isValid {values : LoginFormValues}
    (h : (validateLoginForm values).isValid = true) : (validateLoginForm values).errors = [] :=
  (validateLoginForm_isValid_iff values).mp h

/-! ### Helper lemmas: the state machine -/

theorem handleSubmit_values (s : LoginState) : (handleSubmit s).1.values = s.values := by
  unfold handleSubmit
  split
  · rfl
  · dsimp only
    split <;> rfl

theorem handleBlur_values (opts : UseLoginOptions) (s : LoginState) (field : FieldName) :
    (handleBlur opts s field).values = s.values := by
  unfold handleBlur
  split
  · cases field <;> rfl
  · rfl

theorem handleSubmit_of_inflight {s : LoginState} (h : s.isSubmittingRef = true) :
    handleSubmit s = (s, none) := by
  unfold handleSubmit
  rw [if_pos h]

theorem handleSubmit_of_invalid {s : LoginState} (hflag : s.isSubmittingRef = false)
    (hinv : (validateLoginForm s.values).isValid = false) :
    handleSubmit s =
      ({ s with errors := (validateLoginForm s.values).errors,
                touched := { email := true, password := true, rememberMe := true },
                submissionState := SubmissionState.error }, none) := by
  unfold handleSubmit
  rw [if_neg (by rw [hflag]; exact Bool.false_ne_true), if_pos hinv]

theorem handleSubmit_of_valid {s : LoginState} (hflag : s.isSubmittingRef = false)
    (hval : (validateLoginForm s.values).isValid = true) :
    handleSubmit s =
      ({ s with errors := [],
                touched := { email := true, password := true, rememberMe := true },
                authError := none,
                submissionState := SubmissionState.submitting,
                isSubmittingRef := true },
       some { email := s.values.email,
              password := s.values.password,
              rememberMe := s.values.rememberMe }) := by
  unfold handleSubmit
  rw [if_neg (by simp [hflag]), if_neg (by simp [hval]),
    validateLoginForm_errors_nil_of_isValid hval]

theorem handleChange_email_sanitized (opts : UseLoginOptions) (s : LoginState)
    (field : FieldName) (value : ChangeValue)
    (ih : sanitizeEmail s.values.email = s.values.email) :
    sanitizeEmail (handleChange opts s field value).values.email =
      (handleChange opts s field value).values.email := by
  cases field <;> cases value <;>
    simp only [handleChange] <;>
    first
      | exact sanitizeEmail_idempotent _
      | exact ih

theorem reachable_email_sanitized {opts : UseLoginOptions} {s : LoginState}
    (h : ReachableLoginState opts s) : sanitizeEmail s.values.email = s.values.email := by
  induction h with
  | init => rfl
  | change field value _ ih => exact handleChange_email_sanitized _ _ _ _ ih
  | blur field _ ih => rw [handleBlur_values]; exact ih
  | submit _ ih => rw [handleSubmit_values]; exact ih
  | resolve _ ih => exact ih
  | reject e _ ih => exact ih
  | reset _ _ => rfl

/-! ### Claim theorems -/

/-- Claim C8: `sanitizeEmail` is the pure total function trimming then
lowercasing; it is idempotent, and for every string its result has no
leading or trailing whitespace (trimming it again is the identity) and no
uppercase ASCII letters; concretely it maps a padded mixed-case address to
the canonical lowercase one. -/
theorem sanitizeEmail_spec :
    (∀ s : List Nat,
      sanitizeEmail s = (jsTrim s).map jsLowerCode ∧
      sanitizeEmail (sanitizeEmail s) = sanitizeEmail s ∧
      jsTrim (sanitizeEmail s) = sanitizeEmail s ∧
      (sanitizeEmail s).all (fun n => !isUpperCode n) = true) ∧
    sanitizeEmail (jsStr "  User@Example.COM  ") = jsStr "user@example.com" := by
  refine ⟨fun s => ⟨rfl, sanitizeEmail_idempotent s, sanitizeEmail_trim_self s,
    sanitizeEmail_no_upper s⟩, by decide⟩

/-- Witness for C8 at a concrete input. -/
theorem sanitizeEmail_spec_witness :
    sanitizeEmail (sanitizeEmail (jsStr " A ")) = sanitizeEmail (jsStr " A ") :=
  (sanitizeEmail_spec.1 (jsStr " A ")).2.1

/-- Claim C10: `canSubmitForm values isSubmitting` is true iff no
submission is in flight and the form validates; in particular it is false
whenever a submission is in flight. -/
theorem canSubmitForm_spec :
    (∀ (values : LoginFormValues) (isSubmitting : Bool),
      canSubmitForm values isSubmitting = true ↔
        (isSubmitting = false ∧ (validateLoginForm values).isValid = true)) ∧
    (∀ values : LoginFormValues, canSubmitForm values true = false) := by
  constructor
  · intro values b
    cases b <;> simp [canSubmitForm]
  · intro values
    rfl

/-- Witness for C10 at a concrete valid form. -/
theorem canSubmitForm_spec_witness :
    canSubmitForm { email := jsStr "user@example.com", password := jsStr "password123",
                    rememberMe := false } false = true :=
  (canSubmitForm_spec.1 _ _).mpr ⟨rfl, by decide⟩

/-- Claim C9: `getSafeRedirectUrl` returns a defined candidate unchanged
exactly when `isValidRedirectUrl` accepts it, and otherwise returns the
supplied default unchanged (the default is not re-validated); with the
concrete examples of the spec. -/
theorem getSafeRedirectUrl_spec :
    (∀ candidate defaultUrl : List Nat, isValidRedirectUrl candidate = true →
      getSafeRedirectUrl (some candidate) defaultUrl = candidate) ∧
    (∀ candidate defaultUrl : List Nat, isValidRedirectUrl candidate = false →
      getSafeRedirectUrl (some candidate) defaultUrl = defaultUrl) ∧
    (∀ defaultUrl : List Nat, getSafeRedirectUrl none defaultUrl = defaultUrl) ∧
    getSafeRedirectUrl (some (jsStr "http://evil.com")) (jsStr "/dashboard") = jsStr "/dashboard" ∧
    getSafeRedirectUrl (some (jsStr "/profile")) (jsStr "/dashboard") = jsStr "/profile" ∧
    getSafeRedirectUrl none (jsStr "/home") = jsStr "/home" := by
  refine ⟨?_, ?_, fun d => rfl, by decide, by decide, by decide⟩
  · intro c d h
    have hne : c.isEmpty = false := by
      cases c with
      | nil => rw [show isValidRedirectUrl [] = false from rfl] at h; cases h
      | cons a t => rfl
    simp [getSafeRedirectUrl, hne, h]
  · intro c d h
    simp [getSafeRedirectUrl, h]

/-- Witness for C9: both branches exercised at concrete inputs. -/
theorem getSafeRedirectUrl_spec_witness :
    getSafeRedirectUrl (some (jsStr "/settings/profile")) (jsStr "/dashboard")
        = jsStr "/settings/profile" ∧
    getSafeRedirectUrl (some (jsStr "javascript:alert(1)")) (jsStr "/dashboard")
        = jsStr "/dashboard" :=
  ⟨getSafeRedirectUrl_spec.1 _ _ (by decide),
   getSafeRedirectUrl_spec.2.1 _ _ (by decide)⟩

/-- Claim C7: when the collaborator rejects with an `AuthError` while the
machine is in `submitting`, the machine stores exactly that error,
transitions to `error`, clears the re-entrancy flag, and passes the very
same error to the caller-supplied error callback; all other state fields
are unchanged. -/
theorem handleSubmitReject_spec :
    ∀ (s : LoginState) (e : AuthError),
      s.submissionState = SubmissionState.submitting →
      handleSubmitReject s e =
        ({ s with authError := some e,
                  submissionState := SubmissionState.error,
                  isSubmittingRef := false }, some e) := by
  intro s e _
  rfl

/-- Witness for C7: a rejection with the generic invalid-credentials error
in the concrete in-flight session stores exactly the generic message. -/
theorem handleSubmitReject_spec_witness :
    handleSubmitReject stateInFlight invalidCredentialsError =
      ({ stateInFlight with authError := some invalidCredentialsError,
                            submissionState := SubmissionState.error,
                            isSubmittingRef := false }, some invalidCredentialsError) ∧
    (handleSubmitReject stateInFlight invalidCredentialsError).1.authError.map AuthError.message
      = some (jsStr "Invalid email or password") := by
  have h := handleSubmitReject_spec stateInFlight invalidCredentialsError (by decide)
  exact ⟨h, by rw [h]; rfl⟩

/-- Claim C2: a submit while the re-entrancy flag is set is a complete
no-op (state unchanged, the authentication client not invoked, nothing
queued), and a submit from a clear flag with a valid form invokes the
client and flips the flag so that an immediately following second submit
is such a no-op — hence two submits before the first resolution yield
exactly one client invocation. -/
theorem handleSubmit_single_flight :
    (∀ s : LoginState, s.isSubmittingRef = true → handleSubmit s = (s, none)) ∧
    (∀ s : LoginState, s.isSubmittingRef = false →
      (validateLoginForm s.values).isValid = true →
      ((handleSubmit s).2 = some { email := s.values.email, password := s.values.password,
                                   rememberMe := s.values.rememberMe } ∧
       handleSubmit (handleSubmit s).1 = ((handleSubmit s).1, none))) := by
  constructor
  · exact fun s h => handleSubmit_of_inflight h
  · intro s hflag hval
    rw [handleSubmit_of_valid hflag hval]
    exact ⟨rfl, handleSubmit_of_inflight rfl⟩

/-- Witness for C2: in the concrete valid session the first submit invokes
the client once and the second submit is a no-op. -/
theorem handleSubmit_single_flight_witness :
    (handleSubmit stateAfterValidEntry).2 =
      some { email := jsStr "user@example.com", password := jsStr "password123",
             rememberMe := false } ∧
    handleSubmit stateInFlight = (stateInFlight, none) := by
  have h := handleSubmit_single_flight.2 stateAfterValidEntry (by decide) (by decide)
  exact ⟨h.1.trans (by decide), h.2⟩

/-- Claim C3: whenever the form values are invalid, a submit never invokes
the authentication client and never enters `submitting`; when it is not
dropped by the re-entrancy flag it synchronously stores the validation
errors, marks all fields touched, and sets the submission state to
`error`, leaving everything else unchanged. -/
theorem handleSubmit_invalid_spec :
    ∀ s : LoginState, (validateLoginForm s.values).isValid = false →
      ((handleSubmit s).2 = none ∧
       ((handleSubmit s).1.submissionState = SubmissionState.submitting →
         s.submissionState = SubmissionState.submitting) ∧
       (s.isSubmittingRef = false →
         handleSubmit s =
           ({ s with errors := (validateLoginForm s.values).errors,
                     touched := { email := true, password := true, rememberMe := true },
                     submissionState := SubmissionState.error }, none))) := by
  intro s hinv
  rcases Bool.eq_false_or_eq_true s.isSubmittingRef with hflag | hflag
  · rw [handleSubmit_of_inflight hflag]
    exact ⟨rfl, fun h => h, fun hf => absurd (hflag.symm.trans hf) (by simp)⟩
  · rw [handleSubmit_of_invalid hflag hinv]
    exact ⟨rfl, fun h => absurd h (by simp), fun _ => rfl⟩

/-- Witness for C3: submitting the empty initial form yields no client
call and a synchronous `error` state. -/
theorem handleSubmit_invalid_spec_witness :
    (handleSubmit initialLoginState).2 = none ∧
    (handleSubmit initialLoginState).1.submissionState = SubmissionState.error := by
  have h := handleSubmit_invalid_spec initialLoginState (by decide)
  exact ⟨h.1, by rw [h.2.2 rfl]⟩

/-- Claim C4: in every reachable state, a submit that proceeds (flag
clear, form valid) clears any stale auth error, sets the re-entrancy flag,
enters `submitting`, and invokes the client with the current password and
rememberMe and an email that is a fixed point of `sanitizeEmail` (the
stored email is always sanitized, whatever change events produced it). -/
theorem handleSubmit_valid_sanitized :
    ∀ (opts : UseLoginOptions) (s : LoginState),
      ReachableLoginState opts s →
      s.isSubmittingRef = false →
      (validateLoginForm s.values).isValid = true →
      (handleSubmit s =
         ({ s with errors := [],
                   touched := { email := true, password := true, rememberMe := true },
                   authError := none,
                   submissionState := SubmissionState.submitting,
                   isSubmittingRef := true },
          some { email := s.values.email, password := s.values.password,
                 rememberMe := s.values.rememberMe }) ∧
       sanitizeEmail s.values.email = s.values.email) := by
  intro opts s hreach hflag hval
  exact ⟨handleSubmit_of_valid hflag hval, reachable_email_sanitized hreach⟩

/-- Witness for C4: the concrete session in which the user typed a
mixed-case padded email; the submit passes the sanitized fixed-point email
to the client. -/
theorem handleSubmit_valid_sanitized_witness :
    (handleSubmit stateAfterValidEntry =
      ({ stateAfterValidEntry with
           errors := [],
           touched := { email := true, password := true, rememberMe := true },
           authError := none,
           submissionState := SubmissionState.submitting,
           isSubmittingRef := true },
       some { email := stateAfterValidEntry.values.email,
              password := stateAfterValidEntry.values.password,
              rememberMe := stateAfterValidEntry.values.rememberMe }) ∧
     sanitizeEmail stateAfterValidEntry.values.email = stateAfterValidEntry.values.email) ∧
    stateAfterValidEntry.values.email = jsStr "user@example.com" := by
  refine ⟨handleSubmit_valid_sanitized defaultUseLoginOptions stateAfterValidEntry
    ?_ (by decide) (by decide), by decide⟩
  exact ReachableLoginState.change FieldName.password (ChangeValue.str (jsStr "password123"))
    (ReachableLoginState.change FieldName.email (ChangeValue.str (jsStr "User@Example.COM"))
      ReachableLoginState.init)

/-- Claim C5: `validateField` applies the rules of a field in fixed order
and returns the first failing rule's error, or `none` when all pass: for
`email` required (trimmed non-empty), then format (trimmed value matches
the email regex), then maxLength (trimmed length at most 254); for
`password` required, then minLength (at least 8), then maxLength (at most
128); for any other field no rules apply; with the concrete examples of
the spec. -/
theorem validateField_spec :
    (∀ v : List Nat,
      validateField FieldName.email v =
        if (jsTrim v).length = 0 then
          some { field := FieldName.email, message := jsStr "Email is required",
                 type := ValidationErrorType.required }
        else if emailRegexTest (jsTrim v) = false then
          some { field := FieldName.email, message := jsStr "Please enter a valid email address",
                 type := ValidationErrorType.format }
        else if 254 < (jsTrim v).length then
          some { field := FieldName.email, message := jsStr "Email must not exceed 254 characters",
                 type := ValidationErrorType.maxLength }
        else none) ∧
    (∀ v : List Nat,
      validateField FieldName.password v =
        if v.length = 0 then
          some { field := FieldName.password, message := jsStr "Password is required",
                 type := ValidationErrorType.required }
        else if v.length < 8 then
          some { field := FieldName.password,
                 message := jsStr "Password must be at least 8 characters",
                 type := ValidationErrorType.minLength }
        else if 128 < v.length then
          some { field := FieldName.password,
                 message := jsStr "Password must not exceed 128 characters",
                 type := ValidationErrorType.maxLength }
        else none) ∧
    (∀ v : List Nat, validateField FieldName.rememberMe v = none) ∧
    (validateField FieldName.email []).map FieldError.type
      = some ValidationErrorType.required ∧
    (validateField FieldName.email (jsStr "not-an-email")).map FieldError.type
      = some ValidationErrorType.format ∧
    (validateField FieldName.email (List.replicate 250 97 ++ jsStr "@b.com")).map FieldError.type
      = some ValidationErrorType.maxLength ∧
    validateField FieldName.email (jsStr "user@example.com") = none ∧
    (validateField FieldName.password []).map FieldError.type
      = some ValidationErrorType.required ∧
    (validateField FieldName.password (jsStr "short")).map FieldError.type
      = some ValidationErrorType.minLength ∧
    (validateField FieldName.password (List.replicate 129 97)).map FieldError.type
      = some ValidationErrorType.maxLength ∧
    validateField FieldName.password (List.replicate 8 97) = none := by
  refine ⟨?_, ?_, fun v => rfl, by decide, by decide, by decide, by decide, by decide,
    by decide, by decide, by decide⟩
  · intro v
    by_cases h1 : (jsTrim v).length = 0
    · simp [validateField, emailRules, runRules, h1]
    · by_cases h2 : emailRegexTest (jsTrim v) = false
      · simp [validateField, emailRules, runRules, h1, h2, Nat.pos_of_ne_zero h1]
      · by_cases h3 : 254 < (jsTrim v).length
        · simp [validateField, emailRules, runRules, h1, h2, h3, Nat.pos_of_ne_zero h1,
            Nat.not_le.mpr h3]
        · simp [validateField, emailRules, runRules, h1, h2, h3, Nat.pos_of_ne_zero h1,
            Nat.not_lt.mp h3]
  · intro v
    by_cases h1 : v.length = 0
    · simp [validateField, passwordRules, runRules, h1]
    · by_cases h2 : v.length < 8
      · simp [validateField, passwordRules, runRules, h1, h2, Nat.pos_of_ne_zero h1,
          Nat.not_le.mpr h2]
      · by_cases h3 : 128 < v.length
        · simp [validateField, passwordRules, runRules, h1, h2, h3, Nat.pos_of_ne_zero h1,
            Nat.not_lt.mp h2, Nat.not_le.mpr h3]
        · simp [validateField, passwordRules, runRules, h1, h2, h3, Nat.pos_of_ne_zero h1,
            Nat.not_lt.mp h2, Nat.not_lt.mp h3]

/-- Witness for C5: the `email` clause evaluated at a concrete address. -/
theorem validateField_spec_witness :
    validateField FieldName.email (jsStr "user+tag@example.com") = none := by
  rw [validateField_spec.1 (jsStr "user+tag@example.com")]
  decide

/-- Claim C6: `validateLoginForm` evaluates exactly the `email` and
`password` fields (never `rememberMe`), yields at most one error per field
and hence at most two errors, and satisfies the invariant
`isValid = (errors is empty)`; concretely the empty form yields exactly
one error per field and the valid form yields none. -/
theorem validateLoginForm_spec :
    (∀ values : LoginFormValues,
      (validateLoginForm values).errors =
        (validateField FieldName.email values.email).toList ++
          (validateField FieldName.password values.password).toList ∧
      (validateLoginForm values).errors.length ≤ 2 ∧
      (∀ f : FieldName,
        ((validateLoginForm values).errors.countP (fun e => decide (e.field = f))) ≤ 1) ∧
      ((validateLoginForm values).isValid = true ↔ (validateLoginForm values).errors = [])) ∧
    ((validateLoginForm { email := [], password := [], rememberMe := false }).errors.map
        FieldError.field = [FieldName.email, FieldName.password] ∧
      (validateLoginForm { email := [], password := [], rememberMe := false }).isValid
        = false) ∧
    ((validateLoginForm { email := jsStr "user@example.com",
                          password := jsStr "password123",
                          rememberMe := false }).errors = [] ∧
      (validateLoginForm { email := jsStr "user@example.com",
                           password := jsStr "password123",
                           rememberMe := false }).isValid = true) := by
  refine ⟨fun values => ⟨validateLoginForm_errors values, ?_, ?_, validateLoginForm_isValid_iff values⟩,
    ⟨by decide, by decide⟩, ⟨by decide, by decide⟩⟩
  · rw [validateLoginForm_errors values]
    cases validateField FieldName.email values.email <;>
      cases validateField FieldName.password values.password <;> simp
  · intro f
    rw [validateLoginForm_errors values]
    cases h1 : validateField FieldName.email values.email with
    | none =>
      cases h2 : validateField FieldName.password values.password with
      | none => simp
      | some e2 => simp [List.countP_cons]; split <;> omega
    | some e1 =>
      cases h2 : validateField FieldName.password values.password with
      | none => simp [List.countP_cons]; split <;> omega
      | some e2 =>
        have hf1 : e1.field = FieldName.email := validateField_field h1
        have hf2 : e2.field = FieldName.password := validateField_field h2
        cases f <;> simp [List.countP_cons, hf1, hf2]

/-- Witness for C6: the invariant instantiated at the empty form. -/
theorem validateLoginForm_spec_witness :
    (validateLoginForm { email := [], password := [], rememberMe := false }).errors.length ≤ 2 :=
  (validateLoginForm_spec.1 { email := [], password := [], rememberMe := false }).2.1

/-- Claim C1: `isValidRedirectUrl url` is true iff `url` is non-empty and
not whitespace-only, does not begin with `http://`, `https://`, `//`,
`javascript:` or `data:`, begins with `/`, and either equals an allow-list
root or begins with such a root followed by `/`; with the concrete
examples of the spec. -/
theorem isValidRedirectUrl_spec :
    (∀ url : List Nat,
      isValidRedirectUrl url = true ↔
        (url ≠ [] ∧ jsTrim url ≠ [] ∧
         listStartsWith url (jsStr "http://") = false ∧
         listStartsWith url (jsStr "https://") = false ∧
         listStartsWith url (jsStr "//") = false ∧
         listStartsWith url (jsStr "javascript:") = false ∧
         listStartsWith url (jsStr "data:") = false ∧
         listStartsWith url (jsStr "/") = true ∧
         (∃ path ∈ allowedPaths,
           url = path ∨ listStartsWith url (path ++ jsStr "/") = true))) ∧
    isValidRedirectUrl (jsStr "/dashboard") = true ∧
    isValidRedirectUrl (jsStr "/dashboard/overview") = true ∧
    isValidRedirectUrl (jsStr "http://evil.com") = false ∧
    isValidRedirectUrl (jsStr "//evil.com") = false ∧
    isValidRedirectUrl (jsStr "javascript:alert(1)") = false ∧
    isValidRedirectUrl (jsStr "/admin") = false ∧
    isValidRedirectUrl (jsStr "") = false := by
  refine ⟨?_, by decide, by decide, by decide, by decide, by decide, by decide, by decide⟩
  intro url
  unfold isValidRedirectUrl
  split_ifs with h1 h2 h3 h4
  · simp only [Bool.false_eq_true, false_iff]
    rintro ⟨hne, htr, -⟩
    rw [Bool.or_eq_true] at h1
    rcases h1 with h1 | h1
    · rw [List.isEmpty_iff] at h1
      exact hne h1
    · rw [beq_iff_eq, List.length_eq_zero] at h1
      exact htr h1
  · simp only [Bool.false_eq_true, false_iff]
    rintro ⟨-, -, hh1, hh2, hh3, -, -, -, -⟩
    rw [hh1, hh2, hh3] at h2
    simp at h2
  · simp only [Bool.false_eq_true, false_iff]
    rintro ⟨-, -, -, -, -, hj, hd, -, -⟩
    rw [hj, hd] at h3
    simp at h3
  · simp only [Bool.false_eq_true, false_iff]
    rintro ⟨-, -, -, -, -, -, -, hs, -⟩
    rw [hs] at h4
    simp at h4
  · simp only [Bool.or_eq_true, not_or, Bool.not_eq_true] at h1 h2 h3
    obtain ⟨hne', htr'⟩ := h1
    obtain ⟨⟨hh1, hh2⟩, hh3⟩ := h2
    obtain ⟨hj, hd⟩ := h3
    have h4' : listStartsWith url (jsStr "/") = true := by
      cases hb : listStartsWith url (jsStr "/")
      · rw [hb] at h4
        simp at h4
      · rfl
    constructor
    · intro hany
      refine ⟨?_, ?_, hh1, hh2, hh3, hj, hd, h4', ?_⟩
      · intro he
        rw [he] at hne'
        simp at hne'
      · intro he
        rw [he] at htr'
        simp at htr'
      · simpa only [List.any_eq_true, Bool.or_eq_true, beq_iff_eq] using hany
    · rintro ⟨-, -, -, -, -, -, -, -, hex⟩
      simpa only [List.any_eq_true, Bool.or_eq_true, beq_iff_eq] using hex

/-- Witness for C1: the iff instantiated at a nested allow-listed path. -/
theorem isValidRedirectUrl_spec_witness :
    jsTrim (jsStr "/profile/me") ≠ [] ∧
    listStartsWith (jsStr "/profile/me") (jsStr "/") = true :=
  have h := (isValidRedirectUrl_spec.1 (jsStr "/profile/me")).mp (by decide)
  ⟨h.2.1, h.2.2.2.2.2.2.2.1⟩
